import Mathlib

/-!
Verification development for the `plp_bookstore` query script (`queries.js`).

The script opens a MongoDB connection, runs a fixed sequence of sixteen
operations (reads, one update, one delete, aggregations, index creations
and one explain diagnostic) against the `books` collection inside a
`try`/`catch`/`finally` block, and always closes the connection.

The collection is shallowly embedded as a `List Book` in natural
(insertion) order; each driver call of the script is embedded as a pure
function on that list, following the documented MongoDB semantics for the
operators the script uses (`find` with filters, `updateOne`, `deleteOne`,
`sort`, `skip`/`limit`, `aggregate` with `$group`/`$sort`/`$limit`,
`createIndex`).  Prices are embedded as rationals (the script only writes
and compares the literal `13.99`; no float rounding is exercised).
-/

namespace PlpBookstore

/-- A document of the `books` collection (spec §3: fields `title`,
`author`, `genre`, `published_year`, `price`, `in_stock`). -/
structure Book where
  title : String
  author : String
  genre : String
  published_year : Int
  price : ℚ
  in_stock : Bool
deriving DecidableEq, Repr

/-- Filter of the update in `queries.js` line 35: `{ title: "Atomic Habits" }`. -/
def isAtomicHabits (b : Book) : Bool := b.title == "Atomic Habits"

/-- Filter of the delete in `queries.js` line 41: `{ title: "1984" }`. -/
def is1984 (b : Book) : Bool := b.title == "1984"

/-- MongoDB `updateOne`: apply the update to the first document matching
the filter (natural order).  Returns the new collection, `matchedCount`
and `modifiedCount`.  Per the documented driver semantics,
`modifiedCount` counts only documents actually changed: a `$set` that
leaves the document equal to itself is matched but not modified. -/
def updateOne (p : Book → Bool) (u : Book → Book) : List Book → List Book × Nat × Nat
  | [] => ([], 0, 0)
  | b :: rest =>
    if p b then
      (u b :: rest, 1, if u b = b then 0 else 1)
    else
      (b :: (updateOne p u rest).1, (updateOne p u rest).2.1, (updateOne p u rest).2.2)

/-- MongoDB `deleteOne`: remove the first document matching the filter
(natural order).  Returns the new collection and `deletedCount`. -/
def deleteOne (p : Book → Bool) : List Book → List Book × Nat
  | [] => ([], 0)
  | b :: rest =>
    if p b then (rest, 1)
    else (b :: (deleteOne p rest).1, (deleteOne p rest).2)

/-- Step 1 of the script (line 22): `find({ genre: "Thriller" })`. -/
def thrillerBooks (c : List Book) : List Book :=
  c.filter (fun b => b.genre == "Thriller")

/-- Step 2 of the script (line 26): `find({ published_year: { $gt: 2015 } })`. -/
def recentBooks (c : List Book) : List Book :=
  c.filter (fun b => decide (2015 < b.published_year))

/-- Step 3 of the script (line 30): `find({ author: "James Clear" })`. -/
def authorBooks (c : List Book) : List Book :=
  c.filter (fun b => b.author == "James Clear")

/-- Step 4 of the script (lines 34-37): `updateOne({title: "Atomic Habits"},
{$set: {price: 13.99}})`. -/
def updateAtomic (c : List Book) : List Book × Nat × Nat :=
  updateOne isAtomicHabits (fun b => { b with price := (13.99 : ℚ) }) c

/-- Step 5 of the script (line 41): `deleteOne({ title: "1984" })`. -/
def delete1984 (c : List Book) : List Book × Nat :=
  deleteOne is1984 c

/-- Step 6 of the script (lines 47-50):
`find({ in_stock: true, published_year: { $gt: 2010 } })`. -/
def inStockRecent (c : List Book) : List Book :=
  c.filter (fun b => b.in_stock && decide (2010 < b.published_year))

/-- Step 7 of the script (lines 54-56): projection onto
`title`, `author`, `price` with `_id` suppressed. -/
def projectedBooks (c : List Book) : List (String × String × ℚ) :=
  c.map (fun b => (b.title, b.author, b.price))

/-- Stable insertion of one element into a sorted list (helper for the
embeddings of `sort` and `$sort`). -/
def insertBy {α : Type} (le : α → α → Bool) (a : α) : List α → List α
  | [] => [a]
  | x :: xs => if le a x then a :: x :: xs else x :: insertBy le a xs

/-- Stable sort by the given comparator (helper for the embeddings of
`sort` and `$sort`). -/
def sortBy {α : Type} (le : α → α → Bool) : List α → List α
  | [] => []
  | x :: xs => insertBy le x (sortBy le xs)

/-- Step 8 of the script (line 60): `find().sort({ price: 1 })`. -/
def sortedAsc (c : List Book) : List Book :=
  sortBy (fun a b => decide (a.price ≤ b.price)) c

/-- Step 9 of the script (line 64): `find().sort({ price: -1 })`. -/
def sortedDesc (c : List Book) : List Book :=
  sortBy (fun a b => decide (b.price ≤ a.price)) c

/-- Step 10 of the script (line 68): `find().skip(5).limit(5)`. -/
def page2 (c : List Book) : List Book :=
  (c.drop 5).take 5

/-- The number of documents titled "1984" in a collection. -/
def count1984 (c : List Book) : Nat :=
  (c.filter is1984).length

/-- Step 11 of the script (lines 74-76): `$group` by `genre` with
`$avg` of `price`.  Groups are listed in first-appearance order of
their key (the pipeline has no `$sort`, so no particular order is
claimed of it). -/
def avgPriceByGenre (c : List Book) : List (String × ℚ) :=
  ((c.map Book.genre).dedup).map (fun g =>
    let grp := c.filter (fun b => b.genre == g)
    (g, ((grp.map Book.price).sum) / (grp.length : ℚ)))

/-- Step 12 of the script (lines 80-84): `$group` by `author` counting
documents, `$sort` by count descending, `$limit: 1`. -/
def topAuthor (c : List Book) : List (String × Nat) :=
  (sortBy (fun p q => decide (q.2 ≤ p.2))
    (((c.map Book.author).dedup).map (fun a =>
      (a, (c.filter (fun b => b.author == a)).length)))).take 1

/-- The decade label computed by the `$group` key of step 13 (lines 91-96):
`$concat [$toString ($subtract [year, $mod [year, 10]]), "s"]`.
`$mod` truncates toward zero, i.e. `Int.tmod`. -/
def decadeLabel (y : Int) : String :=
  toString (y - Int.tmod y 10) ++ "s"

/-- The decade label of a book. -/
def labelOf (b : Book) : String := decadeLabel b.published_year

/-- Lexicographic strict order on the character lists underlying
strings (the simple binary collation of MongoDB, restricted to the ASCII
strings the script produces). -/
def charsLt : List Char → List Char → Bool
  | [], [] => false
  | [], _ :: _ => true
  | _ :: _, [] => false
  | a :: as, b :: bs =>
    if a.val.toNat < b.val.toNat then true
    else if b.val.toNat < a.val.toNat then false
    else charsLt as bs

/-- Comparator for `$sort: { _id: 1 }` over string keys: the simple
binary collation of MongoDB, i.e. lexicographic string order. -/
def strLe (a b : String) : Bool := a == b || charsLt a.data b.data

/-- Step 13 of the script (lines 88-101): `$group` by decade label
counting documents, then `$sort` ascending by the label. -/
def booksByDecade (c : List Book) : List (String × Nat) :=
  sortBy (fun p q => strLe p.1 q.1)
    (((c.map labelOf).dedup).map (fun l =>
      (l, (c.filter (fun b => labelOf b == l)).length)))

/-- An index key specification: ordered field names with direction
(1 ascending, -1 descending). -/
abbrev IndexSpec := List (String × Int)

/-- The default MongoDB name for an index: fields and directions joined
with underscores (for example `title_1`). -/
def indexName (spec : IndexSpec) : String :=
  String.intercalate "_" (spec.map (fun f => f.1 ++ "_" ++ toString f.2))

/-- MongoDB `createIndex`, acting on the set of indexes of the
collection: if an index of the same name already exists it is not
recreated (no error when its key specification is identical, an
`IndexKeySpecsConflict` error when it differs); otherwise the index is
appended.  Returns the resulting index list. -/
def createIndexE (idxs : List IndexSpec) (spec : IndexSpec) :
    Except String (List IndexSpec) :=
  match idxs.find? (fun i => indexName i == indexName spec) with
  | some i => if i = spec then .ok idxs else .error "IndexKeySpecsConflict"
  | none => .ok (idxs ++ [spec])

/-- Step 14 of the script (line 107): `createIndex({ title: 1 })`. -/
def titleIndexSpec : IndexSpec := [("title", 1)]

/-- Step 15 of the script (line 111):
`createIndex({ author: 1, published_year: -1 })`. -/
def compoundIndexSpec : IndexSpec := [("author", 1), ("published_year", -1)]

/-- Step 16 of the script (line 115): the point lookup whose execution
statistics the script asks to explain, `find({ title: "Dune" })`.
Only its read-only nature matters for the claims. -/
def explainDune (c : List Book) : List Book :=
  c.filter (fun b => b.title == "Dune")

/-- The sixteen operations the script issues against the `books`
collection, in source order (`queries.js` comments 1-16). -/
inductive Op where
  | findGenre | findRecent | findAuthor | updatePrice | deleteBook
  | findInStockRecent | projection | sortAsc | sortDesc | paginate
  | aggAvgGenre | aggTopAuthor | aggByDecade | indexTitle | indexCompound
  | explainQuery
deriving DecidableEq, Repr

/-- The fixed operation sequence of `runQueries` (`queries.js` lines
22-116), in execution order. -/
def opSequence : List Op :=
  [.findGenre, .findRecent, .findAuthor, .updatePrice, .deleteBook,
   .findInStockRecent, .projection, .sortAsc, .sortDesc, .paginate,
   .aggAvgGenre, .aggTopAuthor, .aggByDecade, .indexTitle, .indexCompound,
   .explainQuery]

/-- The state of the external store: the documents of the `books`
collection (in natural order) and its indexes. -/
structure Store where
  books : List Book
  indexes : List IndexSpec
deriving DecidableEq

/-- The effect of one operation on the store.  Reads and aggregations
leave the store unchanged; the update and the delete replace the
document list; index creation extends the index list (`none` embeds an
operation-level error being thrown, possible only for a conflicting
`createIndex`). -/
def applyOp : Op → Store → Option Store
  | .updatePrice, s => some { s with books := (updateAtomic s.books).1 }
  | .deleteBook, s => some { s with books := (delete1984 s.books).1 }
  | .indexTitle, s =>
    match createIndexE s.indexes titleIndexSpec with
    | .ok idxs => some { s with indexes := idxs }
    | .error _ => none
  | .indexCompound, s =>
    match createIndexE s.indexes compoundIndexSpec with
    | .ok idxs => some { s with indexes := idxs }
    | .error _ => none
  | _, s => some s

/-- The console lines of `runQueries` that the claims are about: the
connect log (line 14), one success log per operation (its
`console.log`), the catch-block error log (line 119) and the
finally-block closure log (line 122). -/
inductive LogEvent where
  | connected | opLog (op : Op) | errorLog | closedLog
deriving DecidableEq, Repr

/-- The failure environment of one run: whether `client.connect()`
succeeds, and which operations throw (the network may fail at any
point; the script has no retries). -/
structure Env where
  connectOk : Bool
  opThrows : Op → Bool

/-- Run a list of operations in sequence.  Each operation either throws
(as dictated by the environment, or by its own error path), ending the
try block early with no further logs, or logs its result and continues.
Returns the logs, the final store, and whether all operations
succeeded. -/
def runOps (env : Env) : List Op → Store → List LogEvent × Store × Bool
  | [], s => ([], s, true)
  | op :: rest, s =>
    if env.opThrows op then ([], s, false)
    else
      match applyOp op s with
      | none => ([], s, false)
      | some s' =>
        ((LogEvent.opLog op) :: (runOps env rest s').1,
         (runOps env rest s').2.1, (runOps env rest s').2.2)

/-- The try block of `runQueries` (lines 12-117): connect (logging
success), then run the sixteen operations. -/
def tryBody (env : Env) (s0 : Store) : List LogEvent × Store × Bool :=
  if env.connectOk then
    (LogEvent.connected :: (runOps env opSequence s0).1,
     (runOps env opSequence s0).2.1, (runOps env opSequence s0).2.2)
  else ([], s0, false)

/-- The connection state of the driver client (spec §4.1: linear
`Disconnected → Connected → Closed`). -/
inductive ConnState where
  | Disconnected | Connected | Closed
deriving DecidableEq, Repr

/-- Embedding of `runQueries` (lines 11-124): try block, catch block logging the
error, finally block closing the connection and logging closure.
Returns the full console log, the final store, and the final connection
state. -/
def runQueries (env : Env) (s0 : Store) : List LogEvent × Store × ConnState :=
  ((if (tryBody env s0).2.2 then (tryBody env s0).1
    else (tryBody env s0).1 ++ [LogEvent.errorLog]) ++ [LogEvent.closedLog],
   (tryBody env s0).2.1, ConnState.Closed)

/-! Concrete fixtures used to instantiate the theorems (shapes as in the
companion seed data of the repository). -/

/-- A fixture "Atomic Habits" document whose price differs from `13.99`. -/
def bookAtomic16 : Book :=
  ⟨"Atomic Habits", "James Clear", "Self-help", 2018, 16, true⟩

/-- A fixture "Atomic Habits" document whose price is already `13.99`
(given as a reduced rational so that it evaluates). -/
def bookAtomic1399 : Book :=
  ⟨"Atomic Habits", "James Clear", "Self-help", 2018,
    Rat.mk' 1399 100 (by decide) (by decide), true⟩

/-- A fixture document titled "1984". -/
def book1984A : Book := ⟨"1984", "George Orwell", "Dystopian", 1949, 10, true⟩

/-- A second, distinct fixture document titled "1984". -/
def book1984B : Book := ⟨"1984", "George Orwell", "Dystopian", 1950, 11, false⟩

/-- A fixture document published exactly in 2015. -/
def book2015 : Book := ⟨"Go Set a Watchman", "Harper Lee", "Fiction", 2015, 12, true⟩

/-- A fixture document published after 2015. -/
def book2016 : Book := ⟨"Origin", "Dan Brown", "Thriller", 2016, 14, true⟩

/-- A four-document fixture with publication years 1984, 1988, 2016 and
2021: two documents in the 1980s and two in the 2010s decade groups. -/
def fixture4 : List Book :=
  [⟨"Neuromancer", "William Gibson", "Science Fiction", 1984, 9, true⟩,
   ⟨"The Alchemist", "Paulo Coelho", "Fiction", 1988, 10, true⟩,
   ⟨"Origin", "Dan Brown", "Thriller", 2016, 14, true⟩,
   ⟨"Project Hail Mary", "Andy Weir", "Science Fiction", 2021, 18, true⟩]

/-- A five-document fixture whose publication years are drawn from
{1984, 1988, 2016, 2021}, with exactly two documents whose decade label
is "1980s" and exactly two whose decade label is "2010s". -/
def fixture5 : List Book :=
  [⟨"Neuromancer", "William Gibson", "Science Fiction", 1984, 9, true⟩,
   ⟨"The Alchemist", "Paulo Coelho", "Fiction", 1988, 10, true⟩,
   ⟨"Origin", "Dan Brown", "Thriller", 2016, 14, true⟩,
   ⟨"Before the Coffee Gets Cold", "Toshikazu Kawaguchi", "Fiction", 2016, 12, true⟩,
   ⟨"Project Hail Mary", "Andy Weir", "Science Fiction", 2021, 18, true⟩]

/-- A twelve-document fixture collection in insertion order. -/
def fixture12 : List Book :=
  (List.range 12).map (fun i =>
    ⟨"Book " ++ toString i, "Author " ++ toString i, "Genre", 2000 + (i : Int),
      (i : ℚ), true⟩)

/-- The store fixture used by the control-flow witnesses. -/
def store0 : Store := ⟨[], []⟩

/-- The failure-free environment: connecting succeeds and no operation
throws. -/
def env0 : Env := ⟨true, fun _ => false⟩

/-! Helper lemmas. -/

/-- The price literal of the script, as a reduced rational. -/
lemma price_lit : (13.99 : ℚ) = Rat.mk' 1399 100 (by decide) (by decide) := by
  rw [Rat.mk'_eq_divInt, Rat.divInt_eq_div]; norm_num

/-- Setting the price field leaves the document unchanged exactly when
the price already has the written value. -/
lemma set_price_eq_self (b : Book) (p : ℚ) :
    ({ b with price := p } = b) ↔ b.price = p := by
  cases b with
  | mk t a g y pr s => simp [Book.mk.injEq, eq_comm]

/-- The update of step 4 does not change the title of the document it
rewrites. -/
lemma isAtomicHabits_set_price (b : Book) (p : ℚ) :
    isAtomicHabits { b with price := p } = isAtomicHabits b := rfl

/-- Unfolding of `updateOne` on a matching head document. -/
lemma updateOne_cons_pos (p : Book → Bool) (u : Book → Book) (b : Book)
    (rest : List Book) (h : p b = true) :
    updateOne p u (b :: rest) = (u b :: rest, 1, if u b = b then 0 else 1) := by
  simp [updateOne, h]

/-- Unfolding of `updateOne` on a non-matching head document. -/
lemma updateOne_cons_neg (p : Book → Bool) (u : Book → Book) (b : Book)
    (rest : List Book) (h : p b = false) :
    updateOne p u (b :: rest) =
      (b :: (updateOne p u rest).1,
       (updateOne p u rest).2.1, (updateOne p u rest).2.2) := by
  simp [updateOne, h]

/-- Counting matches of the filter after a `deleteOne`: one match fewer
(truncated at zero). -/
lemma deleteOne_filter_length (p : Book → Bool) (c : List Book) :
    ((deleteOne p c).1.filter p).length = (c.filter p).length - 1 := by
  induction c with
  | nil => rfl
  | cons b rest ih =>
    by_cases h : p b
    · simp [deleteOne, h, List.filter_cons]
    · simp [deleteOne, h, List.filter_cons, ih]

/-- The `deletedCount` of a `deleteOne` is 1 exactly when some document
matches the filter. -/
lemma deleteOne_deletedCount (p : Book → Bool) (c : List Book) :
    (deleteOne p c).2 = (if c.any p then 1 else 0) := by
  induction c with
  | nil => rfl
  | cons b rest ih =>
    by_cases h : p b
    · simp [deleteOne, h]
    · simp [deleteOne, h, ih]

/-- A `deleteOne` only removes documents: the result is a sublist of the
input collection. -/
lemma deleteOne_sublist (p : Book → Bool) (c : List Book) :
    (deleteOne p c).1.Sublist c := by
  induction c with
  | nil => exact List.Sublist.refl _
  | cons b rest ih =>
    by_cases h : p b
    · simp only [deleteOne, h, if_true]
      exact List.sublist_cons_self b rest
    · simp only [deleteOne, h, if_false]
      exact ih.cons₂ b

/-- When some document matches, a `deleteOne` removes exactly one
document. -/
lemma deleteOne_length (p : Book → Bool) (c : List Book) (h : c.any p = true) :
    (deleteOne p c).1.length = c.length - 1 := by
  induction c with
  | nil => simp at h
  | cons b rest ih =>
    by_cases hb : p b
    · simp [deleteOne, hb]
    · simp only [List.any_cons, hb, Bool.false_or] at h
      have hlen : 0 < rest.length := by
        obtain ⟨x, hx, -⟩ := List.any_eq_true.1 h
        exact List.length_pos.2 (List.ne_nil_of_mem hx)
      simp [deleteOne, hb, ih h]
      omega

/-! Claim theorems. -/

/-- C2, counterexample: a collection holding one document titled
"Atomic Habits" whose price is already `13.99`.  A matching document
existed beforehand, yet `modifiedCount` is `0` and not `1`: the count
does not depend solely on prior existence of the matching document. -/
theorem spec_c2_counterexample :
    [bookAtomic1399].any isAtomicHabits = true ∧
    (updateAtomic [bookAtomic1399]).2.2 = 0 := by
  constructor
  · decide
  · simp only [updateAtomic, price_lit]; decide

/-- C2, amended: after the point-update step, the first document titled
"Atomic Habits" (the one the update matched), if any, has price `13.99`;
`modifiedCount` is `1` exactly when such a document existed beforehand
with a price other than `13.99`, and `0` otherwise (in particular when
none existed, or when its price was already `13.99`). -/
theorem spec_c2_amended (coll : List Book) :
    ((updateAtomic coll).1.find? isAtomicHabits).all
      (fun b => b.price == (13.99 : ℚ)) = true ∧
    (updateAtomic coll).2.2 =
      (match coll.find? isAtomicHabits with
       | some b => if b.price = (13.99 : ℚ) then 0 else 1
       | none => 0) := by
  induction coll with
  | nil => exact ⟨rfl, rfl⟩
  | cons b rest ih =>
    cases h : isAtomicHabits b with
    | true =>
      have hpos : isAtomicHabits { b with price := (13.99 : ℚ) } = true := h
      constructor
      · simp only [updateAtomic, updateOne_cons_pos _ _ _ _ h]
        rw [List.find?_cons_of_pos _ hpos]
        simp [Option.all]
      · simp only [updateAtomic, updateOne_cons_pos _ _ _ _ h]
        rw [List.find?_cons_of_pos _ h]
        simp only [set_price_eq_self]
    | false =>
      have hneg : ¬ isAtomicHabits b = true := by simp [h]
      simp only [updateAtomic] at ih ⊢
      rw [updateOne_cons_neg _ _ _ _ h]
      constructor
      · simpa only [List.find?_cons_of_neg _ hneg] using ih.1
      · simpa only [List.find?_cons_of_neg _ hneg] using ih.2

/-- C3, counterexample: a collection holding two documents titled
"1984".  After the point-delete step one of them still remains, so it is
not the case that no document with title "1984" remains for every
collection state. -/
theorem spec_c3_counterexample :
    count1984 [book1984A, book1984B] = 2 ∧
    count1984 (delete1984 [book1984A, book1984B]).1 = 1 := by
  constructor <;> decide

/-- C3, amended: the point-delete step removes the first document titled
"1984" if one exists: the number of such documents decreases by exactly
one (truncated at zero, so none remains whenever at most one existed
beforehand), and the reported `deletedCount` is 1 if at least one such
document existed beforehand and 0 otherwise. -/
theorem spec_c3_amended (coll : List Book) :
    count1984 (delete1984 coll).1 = count1984 coll - 1 ∧
    (delete1984 coll).2 = (if coll.any is1984 then 1 else 0) := by
  exact ⟨deleteOne_filter_length is1984 coll, deleteOne_deletedCount is1984 coll⟩

/-- C10: on every collection containing two or more documents titled
"1984", the delete step removes exactly one of them: the reported
`deletedCount` is 1, the resulting collection has exactly one document
fewer, it is a sublist of the original (nothing is added or reordered),
and the number of documents titled "1984" decreases by exactly one. -/
theorem spec_c10 (coll : List Book) (h : 2 ≤ count1984 coll) :
    (delete1984 coll).2 = 1 ∧
    (delete1984 coll).1.length = coll.length - 1 ∧
    count1984 (delete1984 coll).1 = count1984 coll - 1 ∧
    (delete1984 coll).1.Sublist coll := by
  have hany : coll.any is1984 = true := by
    have hpos : 0 < (coll.filter is1984).length := by
      unfold count1984 at h; omega
    obtain ⟨x, hx⟩ := List.exists_mem_of_ne_nil _ (List.length_pos.1 hpos)
    obtain ⟨hxc, hxp⟩ := List.mem_filter.1 hx
    exact List.any_eq_true.2 ⟨x, hxc, hxp⟩
  refine ⟨?_, ?_, ?_, ?_⟩
  · rw [delete1984, deleteOne_deletedCount, hany]; rfl
  · exact deleteOne_length is1984 coll hany
  · exact deleteOne_filter_length is1984 coll
  · exact deleteOne_sublist is1984 coll

/-- Witness for C10 at a concrete two-document collection. -/
theorem spec_c10_witness :
    (delete1984 [book1984A, book1984B]).2 = 1 ∧
    (delete1984 [book1984A, book1984B]).1.length =
      [book1984A, book1984B].length - 1 ∧
    count1984 (delete1984 [book1984A, book1984B]).1 =
      count1984 [book1984A, book1984B] - 1 ∧
    (delete1984 [book1984A, book1984B]).1.Sublist [book1984A, book1984B] :=
  spec_c10 [book1984A, book1984B] (by decide)

/-- C4: the range-filter read returns exactly the documents with
`published_year` strictly greater than 2015; in particular a document
with `published_year` equal to 2015 is never returned. -/
theorem spec_c4 (coll : List Book) (b : Book) :
    (b ∈ recentBooks coll ↔ b ∈ coll ∧ 2015 < b.published_year) ∧
    (b.published_year = 2015 → b ∉ recentBooks coll) := by
  have hmem : b ∈ recentBooks coll ↔ b ∈ coll ∧ 2015 < b.published_year := by
    simp [recentBooks, List.mem_filter]
  refine ⟨hmem, fun h hb => ?_⟩
  have := (hmem.1 hb).2
  omega

/-- Witness for C4: on a concrete two-document collection, membership in
the range-filter result is as characterised, and the document published
exactly in 2015 is excluded. -/
theorem spec_c4_witness :
    (book2016 ∈ recentBooks [book2015, book2016] ↔
      book2016 ∈ [book2015, book2016] ∧ 2015 < book2016.published_year) ∧
    book2015 ∉ recentBooks [book2015, book2016] :=
  ⟨(spec_c4 [book2015, book2016] book2016).1,
   (spec_c4 [book2015, book2016] book2015).2 rfl⟩

/-- C6: on a 12-document collection in insertion order, the pagination
read with skip 5 and limit 5 returns exactly five documents, the ones at
positions 6 through 10 (indices 5 through 9) of the collection. -/
theorem spec_c6 (coll : List Book) (h : coll.length = 12) :
    (page2 coll).length = 5 ∧
    ∀ i, i < 5 → (page2 coll)[i]? = coll[5 + i]? := by
  constructor
  · simp [page2, List.length_take, List.length_drop, h]
  · intro i hi
    simp only [page2]
    rw [List.getElem?_take, if_pos hi, List.getElem?_drop]

/-- Witness for C6 at a concrete twelve-document collection. -/
theorem spec_c6_witness :
    fixture12.length = 12 ∧
    (page2 fixture12).length = 5 ∧
    (page2 fixture12)[0]? = fixture12[5 + 0]? ∧
    (page2 fixture12)[2]? = fixture12[5 + 2]? ∧
    (page2 fixture12)[4]? = fixture12[5 + 4]? :=
  ⟨by decide, (spec_c6 fixture12 (by decide)).1,
   (spec_c6 fixture12 (by decide)).2 0 (by decide),
   (spec_c6 fixture12 (by decide)).2 2 (by decide),
   (spec_c6 fixture12 (by decide)).2 4 (by decide)⟩

/-- Repeating a `createIndex` with an identical key specification after
a successful one neither errors nor changes the index list. -/
lemma createIndex_idem (spec : IndexSpec) (idxs idxs' : List IndexSpec)
    (h : createIndexE idxs spec = .ok idxs') :
    createIndexE idxs' spec = .ok idxs' := by
  cases hf : idxs.find? (fun i => indexName i == indexName spec) with
  | some i =>
    simp only [createIndexE, hf] at h
    by_cases he : i = spec
    · rw [if_pos he] at h
      injection h with h'
      subst h'
      simp only [createIndexE, hf]
      rw [if_pos he]
    · rw [if_neg he] at h
      exact Except.noConfusion h
  | none =>
    simp only [createIndexE, hf] at h
    injection h with h'
    subst h'
    have hs : List.find? (fun i => indexName i == indexName spec) [spec] =
        some spec :=
      List.find?_cons_of_pos _ (beq_self_eq_true _)
    simp only [createIndexE, List.find?_append, hf, hs, Option.none_or]
    simp

/-- C7: issuing either `createIndex` call of the script (the single-field
ascending title index, or the compound author-ascending /
published_year-descending index) a second time with the identical key
specification succeeds without error and leaves the index list
unchanged. -/
theorem spec_c7 (idxs idxs' : List IndexSpec) :
    (createIndexE idxs titleIndexSpec = .ok idxs' →
      createIndexE idxs' titleIndexSpec = .ok idxs') ∧
    (createIndexE idxs compoundIndexSpec = .ok idxs' →
      createIndexE idxs' compoundIndexSpec = .ok idxs') :=
  ⟨createIndex_idem titleIndexSpec idxs idxs',
   createIndex_idem compoundIndexSpec idxs idxs'⟩

/-- Witness for C7: repeating each index creation on the concrete index
lists it produced succeeds and leaves them unchanged. -/
theorem spec_c7_witness :
    createIndexE [titleIndexSpec] titleIndexSpec = .ok [titleIndexSpec] ∧
    createIndexE [titleIndexSpec, compoundIndexSpec] compoundIndexSpec =
      .ok [titleIndexSpec, compoundIndexSpec] :=
  ⟨(spec_c7 [] [titleIndexSpec]).1 (by rfl),
   (spec_c7 [titleIndexSpec] [titleIndexSpec, compoundIndexSpec]).2 (by rfl)⟩

/-- C8: every operation of the sequence other than the point update and
the point delete leaves the documents of the collection unchanged (the
index creations touch only the index list; reads, aggregations and the
explain diagnostic touch nothing). -/
theorem spec_c8 (op : Op) (hop : op ∈ opSequence) (hu : op ≠ Op.updatePrice)
    (hd : op ≠ Op.deleteBook) (s s' : Store) (h : applyOp op s = some s') :
    s'.books = s.books := by
  cases op <;> try { simp only [applyOp, Option.some.injEq] at h; subst h; rfl }
  case updatePrice => exact absurd rfl hu
  case deleteBook => exact absurd rfl hd
  case indexTitle =>
    simp only [applyOp] at h
    cases hc : createIndexE s.indexes titleIndexSpec with
    | ok idxs =>
      rw [hc] at h
      simp only [Option.some.injEq] at h
      rw [← h]
    | error e => rw [hc] at h; exact Option.noConfusion h
  case indexCompound =>
    simp only [applyOp] at h
    cases hc : createIndexE s.indexes compoundIndexSpec with
    | ok idxs =>
      rw [hc] at h
      simp only [Option.some.injEq] at h
      rw [← h]
    | error e => rw [hc] at h; exact Option.noConfusion h

/-- Witness for C8 at the first read operation and a concrete store. -/
theorem spec_c8_witness : store0.books = store0.books :=
  spec_c8 Op.findGenre (by decide) (by decide) (by decide) store0 store0 rfl

/-- C9, counterexample: the script issues sixteen operations against the
collection, not seventeen. -/
theorem spec_c9_counterexample :
    opSequence.length = 16 ∧ opSequence.length ≠ 17 := by decide

/-- C9, amended: the script issues a fixed sequence of exactly sixteen
hard-coded operations against the single books collection (not counting
the connection open and close). -/
theorem spec_c9_amended : opSequence.length = 16 := by decide

/-- No operation of the try block ever emits the closure log line: that
line belongs exclusively to the finally block. -/
lemma closedLog_not_mem_runOps (env : Env) (ops : List Op) (s : Store) :
    LogEvent.closedLog ∉ (runOps env ops s).1 := by
  induction ops generalizing s with
  | nil => simp [runOps]
  | cons op rest ih =>
    cases h : env.opThrows op with
    | true => simp [runOps, h]
    | false =>
      cases happ : applyOp op s with
      | none => simp [runOps, h, happ]
      | some s2 => simp [runOps, h, happ, ih]

/-- The closure log line is never emitted inside the try block. -/
lemma closedLog_not_mem_tryBody (env : Env) (s0 : Store) :
    LogEvent.closedLog ∉ (tryBody env s0).1 := by
  unfold tryBody
  by_cases h : env.connectOk
  · simp [h, closedLog_not_mem_runOps]
  · simp [h]

/-- C1: on every run of `runQueries` (over every failure environment and
every initial store), the final connection state is `Closed`, the
closure log line is emitted exactly once, and whenever the connection
was established, the run reached the `Connected` state (its success log
line is in the output) and still ended `Closed`. -/
theorem spec_c1 (env : Env) (s0 : Store) :
    (runQueries env s0).2.2 = ConnState.Closed ∧
    (runQueries env s0).1.count LogEvent.closedLog = 1 ∧
    (env.connectOk = true → LogEvent.connected ∈ (runQueries env s0).1) := by
  refine ⟨rfl, ?_, ?_⟩
  · simp only [runQueries, List.count_append]
    have h1 : List.count LogEvent.closedLog [LogEvent.closedLog] = 1 := rfl
    have h0 : ∀ l : List LogEvent, LogEvent.closedLog ∉ l →
        List.count LogEvent.closedLog l = 0 := fun l hl => List.count_eq_zero.2 hl
    by_cases hok : (tryBody env s0).2.2
    · rw [if_pos hok, h1, h0 _ (closedLog_not_mem_tryBody env s0)]
    · rw [if_neg hok, h1, List.count_append,
        h0 _ (closedLog_not_mem_tryBody env s0)]
      rfl
  · intro h
    simp only [runQueries, tryBody, h, if_true, List.mem_append]
    split <;> simp

/-- Witness for C1: the failure-free environment on the empty store
closes exactly once and reaches both `Connected` and `Closed`. -/
theorem spec_c1_witness :
    (runQueries env0 store0).2.2 = ConnState.Closed ∧
    (runQueries env0 store0).1.count LogEvent.closedLog = 1 ∧
    LogEvent.connected ∈ (runQueries env0 store0).1 :=
  ⟨(spec_c1 env0 store0).1, (spec_c1 env0 store0).2.1,
   (spec_c1 env0 store0).2.2 rfl⟩

/-- A duplicate-free list over exactly two distinct present elements is
one of the two orderings of the pair. -/
lemma nodup_mem_pair {l : List String} {a b : String} (hab : a ≠ b)
    (hnd : l.Nodup) (ha : a ∈ l) (hb : b ∈ l)
    (hsub : ∀ x ∈ l, x = a ∨ x = b) :
    l = [a, b] ∨ l = [b, a] := by
  cases l with
  | nil => cases ha
  | cons x t =>
    cases t with
    | nil =>
      have hax : a = x := List.mem_singleton.1 ha
      have hbx : b = x := List.mem_singleton.1 hb
      exact absurd (hax.trans hbx.symm) hab
    | cons y u =>
      obtain ⟨hxny, hynu⟩ := List.nodup_cons.1 hnd
      obtain ⟨hyu, hund⟩ := List.nodup_cons.1 hynu
      have hxy : x ≠ y := fun e => hxny (e ▸ List.mem_cons_self y u)
      have hu : u = [] := by
        by_contra hne
        obtain ⟨z, hz⟩ := List.exists_mem_of_ne_nil u hne
        have hz1 : z ≠ x := fun e => hxny (e ▸ List.mem_cons_of_mem y hz)
        have hz2 : z ≠ y := fun e => hyu (e ▸ hz)
        have hzab := hsub z (List.mem_cons_of_mem x (List.mem_cons_of_mem y hz))
        have hxab := hsub x (List.mem_cons_self x (y :: u))
        have hyab := hsub y (List.mem_cons_of_mem x (List.mem_cons_self y u))
        rcases hzab with hza | hzb
        · rcases hxab with hxa | hxb
          · exact hz1 (hza.trans hxa.symm)
          · rcases hyab with hya | hyb
            · exact hz2 (hza.trans hya.symm)
            · exact hxy (hxb.trans hyb.symm)
        · rcases hxab with hxa | hxb
          · rcases hyab with hya | hyb
            · exact hxy (hxa.trans hya.symm)
            · exact hz2 (hzb.trans hyb.symm)
          · exact hz1 (hzb.trans hxb.symm)
      subst hu
      have hxab := hsub x (List.mem_cons_self x [y])
      have hyab := hsub y (List.mem_cons_of_mem x (List.mem_cons_self y []))
      rcases hxab with hxa | hxb
      · rcases hyab with hya | hyb
        · exact absurd (hxa.trans hya.symm) hxy
        · left; rw [hxa, hyb]
      · rcases hyab with hya | hyb
        · right; rw [hxb, hya]
        · exact absurd (hxb.trans hyb.symm) hxy

/-- A duplicate-free list over exactly three distinct present elements
is one of the six orderings of the triple. -/
lemma nodup_mem_triple {l : List String} {a b c : String}
    (hab : a ≠ b) (hac : a ≠ c) (hbc : b ≠ c)
    (hnd : l.Nodup) (ha : a ∈ l) (hb : b ∈ l) (hc : c ∈ l)
    (hsub : ∀ x ∈ l, x = a ∨ x = b ∨ x = c) :
    l = [a, b, c] ∨ l = [a, c, b] ∨ l = [b, a, c] ∨
    l = [b, c, a] ∨ l = [c, a, b] ∨ l = [c, b, a] := by
  cases l with
  | nil => cases ha
  | cons x t =>
    obtain ⟨hxt, hndt⟩ := List.nodup_cons.1 hnd
    have htail : ∀ {w : String}, w ∈ x :: t → w ≠ x → w ∈ t := by
      intro w hw hwx
      rcases List.mem_cons.1 hw with h | h
      · exact absurd h hwx
      · exact h
    rcases hsub x (List.mem_cons_self x t) with hxa | hxb | hxc
    · subst hxa
      have hbt : b ∈ t := htail hb (fun e => hab e.symm)
      have hct : c ∈ t := htail hc (fun e => hac e.symm)
      have hsubt : ∀ y ∈ t, y = b ∨ y = c := by
        intro y hy
        rcases hsub y (List.mem_cons_of_mem _ hy) with h | h | h
        · exact absurd hy (h ▸ hxt)
        · exact Or.inl h
        · exact Or.inr h
      rcases nodup_mem_pair hbc hndt hbt hct hsubt with ht | ht
      · exact Or.inl (by rw [ht])
      · exact Or.inr (Or.inl (by rw [ht]))
    · subst hxb
      have hat : a ∈ t := htail ha hab
      have hct : c ∈ t := htail hc (fun e => hbc e.symm)
      have hsubt : ∀ y ∈ t, y = a ∨ y = c := by
        intro y hy
        rcases hsub y (List.mem_cons_of_mem _ hy) with h | h | h
        · exact Or.inl h
        · exact absurd hy (h ▸ hxt)
        · exact Or.inr h
      rcases nodup_mem_pair hac hndt hat hct hsubt with ht | ht
      · exact Or.inr (Or.inr (Or.inl (by rw [ht])))
      · exact Or.inr (Or.inr (Or.inr (Or.inl (by rw [ht]))))
    · subst hxc
      have hat : a ∈ t := htail ha hac
      have hbt : b ∈ t := htail hb hbc
      have hsubt : ∀ y ∈ t, y = a ∨ y = b := by
        intro y hy
        rcases hsub y (List.mem_cons_of_mem _ hy) with h | h | h
        · exact Or.inl h
        · exact Or.inr h
        · exact absurd hy (h ▸ hxt)
      rcases nodup_mem_pair hab hndt hat hbt hsubt with ht | ht
      · exact Or.inr (Or.inr (Or.inr (Or.inr (Or.inl (by rw [ht])))))
      · exact Or.inr (Or.inr (Or.inr (Or.inr (Or.inr (by rw [ht])))))

/-- C5, counterexample: the decade label of 2021 is "2020s", not
"2010s".  The five-document fixture (years 1984, 1988, 2016, 2016,
2021) satisfies the stated hypotheses — all years drawn from
{1984, 1988, 2016, 2021}, exactly two documents in the 1980s and two in
the 2010s — yet the aggregation returns a third group "2020s"; and on
the four spec fixture years {1984, 1988, 2016, 2021} themselves, the
result is three groups with counts 2, 1, 1. -/
theorem spec_c5_counterexample :
    (∀ b ∈ fixture5, b.published_year = 1984 ∨ b.published_year = 1988 ∨
      b.published_year = 2016 ∨ b.published_year = 2021) ∧
    (fixture5.filter (fun b => labelOf b == "1980s")).length = 2 ∧
    (fixture5.filter (fun b => labelOf b == "2010s")).length = 2 ∧
    booksByDecade fixture5 ≠ [("1980s", 2), ("2010s", 2)] ∧
    booksByDecade fixture4 = [("1980s", 2), ("2010s", 1), ("2020s", 1)] := by
  decide

/-- C5, amended: the aggregation computes each document's label as the
year minus (year mod 10) converted to a string with the literal suffix
"s" appended — so 1984 and 1988 map to "1980s", 2016 to "2010s", and
2021 to "2020s".  On every collection whose publication years are drawn
from {1984, 1988, 2016, 2021} with exactly two documents in the 1980s,
one in the 2010s and one in the 2020s (as one document per fixture year
gives), it returns exactly three groups, "1980s" with count 2, "2010s"
with count 1 and "2020s" with count 1, ordered ascending by label. -/
theorem spec_c5_amended (coll : List Book)
    (hy : ∀ b ∈ coll, b.published_year = 1984 ∨ b.published_year = 1988 ∨
      b.published_year = 2016 ∨ b.published_year = 2021)
    (h80 : (coll.filter (fun b => labelOf b == "1980s")).length = 2)
    (h10 : (coll.filter (fun b => labelOf b == "2010s")).length = 1)
    (h20 : (coll.filter (fun b => labelOf b == "2020s")).length = 1) :
    booksByDecade coll = [("1980s", 2), ("2010s", 1), ("2020s", 1)] := by
  have hlab : ∀ b ∈ coll, labelOf b = "1980s" ∨ labelOf b = "2010s" ∨
      labelOf b = "2020s" := by
    intro b hb
    rcases hy b hb with h | h | h | h
    · exact Or.inl (by simp only [labelOf, h]; decide)
    · exact Or.inl (by simp only [labelOf, h]; decide)
    · exact Or.inr (Or.inl (by simp only [labelOf, h]; decide))
    · exact Or.inr (Or.inr (by simp only [labelOf, h]; decide))
  have hex : ∀ lab : String, (coll.filter (fun b => labelOf b == lab)).length ≠ 0 →
      lab ∈ coll.map labelOf := by
    intro lab hlen
    have hne : coll.filter (fun b => labelOf b == lab) ≠ [] := by
      intro e; rw [e] at hlen; exact hlen rfl
    obtain ⟨x, hx⟩ := List.exists_mem_of_ne_nil _ hne
    obtain ⟨hxc, hxp⟩ := List.mem_filter.1 hx
    exact List.mem_map.2 ⟨x, hxc, by simpa using hxp⟩
  have hex80 := hex "1980s" (by rw [h80]; exact two_ne_zero)
  have hex10 := hex "2010s" (by rw [h10]; exact one_ne_zero)
  have hex20 := hex "2020s" (by rw [h20]; exact one_ne_zero)
  have hsub : ∀ x ∈ (coll.map labelOf).dedup,
      x = "1980s" ∨ x = "2010s" ∨ x = "2020s" := by
    intro x hx
    obtain ⟨b, hb, rfl⟩ := List.mem_map.1 (List.mem_dedup.1 hx)
    exact hlab b hb
  have hd := nodup_mem_triple
    (show ("1980s" : String) ≠ "2010s" by decide)
    (show ("1980s" : String) ≠ "2020s" by decide)
    (show ("2010s" : String) ≠ "2020s" by decide)
    (List.nodup_dedup _) (List.mem_dedup.2 hex80) (List.mem_dedup.2 hex10)
    (List.mem_dedup.2 hex20) hsub
  rcases hd with hD | hD | hD | hD | hD | hD <;>
  · simp only [booksByDecade, hD, List.map_cons, List.map_nil]
    rw [h80, h10, h20]
    decide

/-- Witness for the amended C5 at the concrete four-document fixture
with years 1984, 1988, 2016 and 2021. -/
theorem spec_c5_witness :
    booksByDecade fixture4 = [("1980s", 2), ("2010s", 1), ("2020s", 1)] :=
  spec_c5_amended fixture4 (by decide) (by decide) (by decide) (by decide)

end PlpBookstore
